import Mathlib

/-!
Shallow embedding of `read_scale.py`, the RadioShack 26-950 USB HID scale
reader: the pure weight-decoding helpers (`get_raw_weight`,
`get_calibrated_weight`, `format_weight_display`), the keyboard listener's
per-key transition, and the main loop's per-iteration behaviour, together
with theorems settling the specification's claims about them.

Python floats are modelled by rationals; `time.time()` timestamps are
rationals; HID report bytes are `Fin 256`.
-/

/-- A byte of a HID report buffer (Python `bytes` elements are in 0..255). -/
abbrev Byte := Fin 256

/-- Constant `BUFFER_WEIGHT_INDEX_HIGH = 6`: high byte of the weight value. -/
def BUFFER_WEIGHT_INDEX_HIGH : ℕ := 6

/-- Constant `BUFFER_WEIGHT_INDEX_LOW = 7`: low byte of the weight value. -/
def BUFFER_WEIGHT_INDEX_LOW : ℕ := 7

/-- Constant `WEIGHT_CALIBRATION_MULTIPLIER = 0.01286` (raw units to ounces). -/
def WEIGHT_CALIBRATION_MULTIPLIER : ℚ := 1286 / 100000

/-- Constant `GRAMS_PER_OUNCE = 28.3495`. -/
def GRAMS_PER_OUNCE : ℚ := 283495 / 10000

/-- Constant `OUNCES_PER_POUND = 16`. -/
def OUNCES_PER_POUND : ℚ := 16

/-- Constant `GRAMS_PER_KILOGRAM = 1000`. -/
def GRAMS_PER_KILOGRAM : ℚ := 1000

/-- Function `get_raw_weight(buffer)`: raises `ValueError` when `len(buffer) < 8`,
otherwise returns `buffer[6] * 256 + buffer[7]` (big-endian 16-bit value).
The raised exception is modelled as the `Except.error` branch. -/
def get_raw_weight (buffer : List Byte) : Except String ℕ :=
  if buffer.length < 8 then
    Except.error ("Buffer too small: " ++ toString buffer.length ++
      " bytes (need at least 8)")
  else
    Except.ok ((buffer.getD BUFFER_WEIGHT_INDEX_HIGH 0).val * 256 +
      (buffer.getD BUFFER_WEIGHT_INDEX_LOW 0).val)

/-- Function `get_calibrated_weight(raw_value, tare_offset)`:
`delta = raw_value - tare_offset; return delta * WEIGHT_CALIBRATION_MULTIPLIER`. -/
def get_calibrated_weight (raw_value tare_offset : ℤ) : ℚ :=
  ((raw_value : ℚ) - (tare_offset : ℚ)) * WEIGHT_CALIBRATION_MULTIPLIER

/-- Claim C1: `get_raw_weight` fails for every buffer shorter than 8 bytes
(a short frame is rejected, never zero-padded), and for every buffer of
length at least 8 returns `buffer[6] * 256 + buffer[7]`, an unsigned 16-bit
value; on an 8-byte buffer with bytes 6 and 7 equal to `0x01` and `0x2C`
it returns 300. -/
theorem get_raw_weight_spec :
    (∀ buffer : List Byte, buffer.length < 8 →
      (get_raw_weight buffer).isOk = false) ∧
    (∀ buffer : List Byte, 8 ≤ buffer.length →
      get_raw_weight buffer =
        Except.ok ((buffer.getD 6 0).val * 256 + (buffer.getD 7 0).val)) ∧
    (∀ (buffer : List Byte) (r : ℕ),
      get_raw_weight buffer = Except.ok r → r < 65536) ∧
    get_raw_weight [0, 0, 0, 0, 0, 0, 0x01, 0x2C] = Except.ok 300 := by
  refine ⟨?_, ?_, ?_, by rfl⟩
  · intro buffer h
    simp [get_raw_weight, h, Except.isOk, Except.toBool]
  · intro buffer h
    simp [get_raw_weight, Nat.not_lt.mpr h, BUFFER_WEIGHT_INDEX_HIGH,
      BUFFER_WEIGHT_INDEX_LOW]
  · intro buffer r h
    unfold get_raw_weight at h
    split at h
    · exact absurd h (by simp)
    · have h6 := (buffer.getD BUFFER_WEIGHT_INDEX_HIGH 0).isLt
      have h7 := (buffer.getD BUFFER_WEIGHT_INDEX_LOW 0).isLt
      have : ((buffer.getD BUFFER_WEIGHT_INDEX_HIGH 0).val * 256 +
          (buffer.getD BUFFER_WEIGHT_INDEX_LOW 0).val) = r := by
        simpa using h
      omega

/-- Concrete instantiation of `get_raw_weight_spec`. -/
theorem get_raw_weight_spec_witness :
    (get_raw_weight ([0, 0, 0] : List Byte)).isOk = false ∧ (300 : ℕ) < 65536 :=
  ⟨get_raw_weight_spec.1 [0, 0, 0] (by decide),
   get_raw_weight_spec.2.2.1 [0, 0, 0, 0, 0, 0, 0x01, 0x2C] 300 (by rfl)⟩

/-- Claim C2: calibration is exactly `(r - o) * WEIGHT_CALIBRATION_MULTIPLIER`
with `WEIGHT_CALIBRATION_MULTIPLIER = 0.01286`, there is no clamping (the
result is negative whenever `r < o`), and `calibrate(r, r) = 0` for every `r`. -/
theorem get_calibrated_weight_spec :
    (∀ r o : ℤ, get_calibrated_weight r o =
      ((r : ℚ) - (o : ℚ)) * WEIGHT_CALIBRATION_MULTIPLIER) ∧
    (∀ r : ℤ, get_calibrated_weight r r = 0) ∧
    (∀ r o : ℤ, r < o → get_calibrated_weight r o < 0) := by
  refine ⟨fun r o => rfl, fun r => by simp [get_calibrated_weight], ?_⟩
  intro r o h
  have hlt : ((r : ℚ) - (o : ℚ)) < 0 := by
    have : (r : ℚ) < (o : ℚ) := by exact_mod_cast h
    linarith
  have hpos : (0 : ℚ) < WEIGHT_CALIBRATION_MULTIPLIER := by
    norm_num [WEIGHT_CALIBRATION_MULTIPLIER]
  exact mul_neg_of_neg_of_pos hlt hpos

/-- Concrete instantiation of `get_calibrated_weight_spec`. -/
theorem get_calibrated_weight_spec_witness :
    get_calibrated_weight 0 5 < 0 :=
  get_calibrated_weight_spec.2.2 0 5 (by decide)

/-- Decimal digit string of a natural number (model of Python's `str` /
`format` rendering of a nonnegative integer); fuel-based recursion. -/
def natStrAux : ℕ → ℕ → List Char
  | 0, _ => []
  | fuel + 1, k =>
    if k < 10 then [Nat.digitChar k]
    else natStrAux fuel (k / 10) ++ [Nat.digitChar (k % 10)]

/-- Decimal rendering of a natural number. -/
def natStr (k : ℕ) : String := String.mk (natStrAux (k + 1) k)

/-- Round a rational to the nearest integer, ties to even — the rounding
used by Python's fixed-point float formatting. -/
def roundHalfEven (q : ℚ) : ℤ :=
  if q - (⌊q⌋ : ℚ) < 1 / 2 then ⌊q⌋
  else if 1 / 2 < q - (⌊q⌋ : ℚ) then ⌊q⌋ + 1
  else if ⌊q⌋ % 2 = 0 then ⌊q⌋ else ⌊q⌋ + 1

/-- Evaluation of `roundHalfEven` on a quotient of naturals, computed with natural
arithmetic (used to evaluate concrete formatting results). -/
def rheNat (a b : ℕ) : ℕ :=
  if 2 * (a % b) < b then a / b
  else if b < 2 * (a % b) then a / b + 1
  else if (a / b) % 2 = 0 then a / b else a / b + 1

/-- Model of Python's `f"{q:.{n}f}"` for nonnegative `q`: round to `n`
decimal places (ties to even) and print with exactly `n` fractional
digits. -/
def fmtFixed (q : ℚ) (n : ℕ) : String :=
  let m := (roundHalfEven (q * (10 : ℚ) ^ n)).toNat
  let ip := m / 10 ^ n
  let fp := m % 10 ^ n
  let fps := natStr fp
  natStr ip ++ "." ++ String.mk (List.replicate (n - fps.length) '0') ++ fps

/-- Function `format_weight_display(weight_oz, is_metric)`: imperial renders
`lb`/`oz` split at 16 oz, metric converts at 28.3495 g/oz and splits at
1000 g; a `-` is prefixed only when the unrounded ounce value is below
`-0.01`, and all magnitudes are rendered from absolute values.
Python's `abs_weight // 16` and `abs_weight % 16` are `⌊abs_weight/16⌋`
and `abs_weight - 16 * ⌊abs_weight/16⌋`. -/
def format_weight_display (weight_oz : ℚ) (is_metric : Bool) : String :=
  let abs_weight := |weight_oz|
  let sgn := if weight_oz < -(1 / 100) then "-" else ""
  if is_metric then
    let grams := weight_oz * GRAMS_PER_OUNCE
    if GRAMS_PER_KILOGRAM ≤ |grams| then
      let kg := |grams| / GRAMS_PER_KILOGRAM
      sgn ++ fmtFixed kg 3 ++ " kg"
    else
      sgn ++ fmtFixed |grams| 1 ++ " g"
  else
    if OUNCES_PER_POUND ≤ abs_weight then
      let lbs := (⌊abs_weight / OUNCES_PER_POUND⌋).toNat
      let rem_oz := abs_weight - OUNCES_PER_POUND * (⌊abs_weight / OUNCES_PER_POUND⌋ : ℚ)
      sgn ++ natStr lbs ++ " lb " ++ fmtFixed rem_oz 2 ++ " oz"
    else
      sgn ++ fmtFixed abs_weight 2 ++ " oz"

lemma roundHalfEven_natCast_div (a b : ℕ) (hb : 0 < b) :
    roundHalfEven ((a : ℚ) / (b : ℚ)) = ((rheNat a b : ℕ) : ℤ) := by
  have hbq : (0 : ℚ) < (b : ℚ) := by exact_mod_cast hb
  have hbne : (b : ℚ) ≠ 0 := ne_of_gt hbq
  have hfloor : ⌊(a : ℚ) / (b : ℚ)⌋ = ((a / b : ℕ) : ℤ) := by
    have h1 : ((a : ℤ) : ℚ) / ((b : ℕ) : ℚ) = (a : ℚ) / (b : ℚ) := by push_cast; ring
    have h2 := Rat.floor_intCast_div_natCast (a : ℤ) b
    rw [h1] at h2
    rw [h2]
    exact (Int.ofNat_ediv a b).symm
  have key : (a : ℚ) = (b : ℚ) * ((a / b : ℕ) : ℚ) + ((a % b : ℕ) : ℚ) := by
    exact_mod_cast (Nat.div_add_mod a b).symm
  have hmod : (a : ℚ) / (b : ℚ) - (((a / b : ℕ) : ℤ) : ℚ) =
      ((a % b : ℕ) : ℚ) / (b : ℚ) := by
    rw [Int.cast_natCast, eq_div_iff hbne, sub_mul, div_mul_cancel₀ _ hbne]
    linarith [key]
  have hlt : (((a % b : ℕ) : ℚ) / (b : ℚ) < 1 / 2) ↔ (2 * (a % b) < b) := by
    rw [div_lt_div_iff₀ hbq (by norm_num : (0 : ℚ) < 2)]
    norm_cast
    omega
  have hgt : (1 / 2 < ((a % b : ℕ) : ℚ) / (b : ℚ)) ↔ (b < 2 * (a % b)) := by
    rw [div_lt_div_iff₀ (by norm_num : (0 : ℚ) < 2) hbq]
    norm_cast
    omega
  have hpar : (((a / b : ℕ) : ℤ) % 2 = 0) ↔ ((a / b) % 2 = 0) := by omega
  simp only [roundHalfEven, rheNat, hfloor, hmod, hlt, hgt, hpar]
  split_ifs <;> push_cast <;> ring

lemma format_zero_eval : format_weight_display 0 false = "0.00 oz" := by
  have habs : |(0 : ℚ)| = 0 := abs_of_nonneg le_rfl
  have harg : (0 : ℚ) * (10 : ℚ) ^ 2 = ((0 : ℕ) : ℚ) / ((1 : ℕ) : ℚ) := by norm_num
  simp only [format_weight_display, fmtFixed, habs, harg,
    roundHalfEven_natCast_div 0 1 (by norm_num), Int.toNat_natCast]
  norm_num [OUNCES_PER_POUND]
  decide

lemma format_twenty_eval : format_weight_display 20 false = "1 lb 4.00 oz" := by
  have habs : |(20 : ℚ)| = 20 := abs_of_nonneg (by norm_num)
  have hfl : ⌊(20 : ℚ) / OUNCES_PER_POUND⌋ = 1 := by
    rw [OUNCES_PER_POUND, Int.floor_eq_iff]
    norm_num
  have harg : ((20 : ℚ) - OUNCES_PER_POUND * ((1 : ℤ) : ℚ)) * (10 : ℚ) ^ 2 =
      ((400 : ℕ) : ℚ) / ((1 : ℕ) : ℚ) := by norm_num [OUNCES_PER_POUND]
  simp only [format_weight_display, fmtFixed, habs, hfl, harg,
    roundHalfEven_natCast_div 400 1 (by norm_num), Int.toNat_natCast]
  norm_num [OUNCES_PER_POUND]
  decide

lemma format_forty_metric_eval : format_weight_display 40 true = "1.134 kg" := by
  have habs : |(40 : ℚ) * GRAMS_PER_OUNCE| = 40 * GRAMS_PER_OUNCE := by
    rw [abs_of_nonneg]
    norm_num [GRAMS_PER_OUNCE]
  have harg : (40 : ℚ) * GRAMS_PER_OUNCE / GRAMS_PER_KILOGRAM * (10 : ℚ) ^ 3 =
      ((56699 : ℕ) : ℚ) / ((50 : ℕ) : ℚ) := by
    norm_num [GRAMS_PER_OUNCE, GRAMS_PER_KILOGRAM]
  simp only [format_weight_display, fmtFixed, habs, harg,
    roundHalfEven_natCast_div 56699 50 (by norm_num), Int.toNat_natCast]
  norm_num [GRAMS_PER_KILOGRAM, GRAMS_PER_OUNCE]
  decide

lemma digitChar_eq_star {d : ℕ} (h : 16 ≤ d) : Nat.digitChar d = '*' := by
  unfold Nat.digitChar
  repeat rw [if_neg (by omega : ¬ _)]

lemma digitChar_ne_dash (d : ℕ) : Nat.digitChar d ≠ '-' := by
  rcases Nat.lt_or_ge d 16 with h | h
  · interval_cases d <;> decide
  · rw [digitChar_eq_star h]; decide

lemma natStrAux_ne_dash : ∀ (fuel k : ℕ), ∀ c ∈ natStrAux fuel k, c ≠ '-' := by
  intro fuel
  induction fuel with
  | zero => intro k c hc; simp [natStrAux] at hc
  | succ fuel ih =>
    intro k c hc
    rw [natStrAux] at hc
    split at hc
    · rcases List.mem_singleton.mp hc with rfl
      exact digitChar_ne_dash k
    · rcases List.mem_append.mp hc with h | h
      · exact ih _ c h
      · rcases List.mem_singleton.mp h with rfl
        exact digitChar_ne_dash (k % 10)

lemma natStrAux_ne_nil (fuel k : ℕ) : natStrAux (fuel + 1) k ≠ [] := by
  rw [natStrAux]
  split
  · simp
  · simp

lemma natStr_data_ne_nil (k : ℕ) : (natStr k).data ≠ [] := natStrAux_ne_nil k k

lemma head?_mem {α : Type} {l : List α} {c : α} (h : l.head? = some c) : c ∈ l := by
  cases l with
  | nil => simp at h
  | cons x xs =>
    simp only [List.head?_cons, Option.some.injEq] at h
    simp [h]

lemma natStr_head_ne_dash (k : ℕ) (c : Char) :
    (natStr k).data.head? = some c → c ≠ '-' := by
  intro h
  exact natStrAux_ne_dash _ _ c (head?_mem h)

lemma fmtFixed_head_ne_dash (q : ℚ) (n : ℕ) (c : Char) :
    (fmtFixed q n).data.head? = some c → c ≠ '-' := by
  intro h
  rw [fmtFixed] at h
  simp only [String.data_append] at h
  rw [List.append_assoc, List.append_assoc,
    List.head?_append_of_ne_nil _ (natStr_data_ne_nil _)] at h
  exact natStr_head_ne_dash _ c h

lemma empty_str_append (s : String) : "" ++ s = s := rfl

lemma fmtFixed_data_ne_nil (q : ℚ) (n : ℕ) : (fmtFixed q n).data ≠ [] := by
  rw [fmtFixed]
  simp only [String.data_append]
  intro h
  rcases List.append_eq_nil.mp h with ⟨h1, _⟩
  rcases List.append_eq_nil.mp h1 with ⟨h2, _⟩
  rcases List.append_eq_nil.mp h2 with ⟨h3, _⟩
  exact natStr_data_ne_nil _ h3

lemma format_false_eq (w : ℚ) :
    format_weight_display w false =
      (if w < -(1 / 100) then "-" else "") ++
        (if OUNCES_PER_POUND ≤ |w| then
          natStr (⌊|w| / OUNCES_PER_POUND⌋).toNat ++ (" lb " ++
            (fmtFixed (|w| - OUNCES_PER_POUND * (⌊|w| / OUNCES_PER_POUND⌋ : ℚ)) 2 ++ " oz"))
        else fmtFixed |w| 2 ++ " oz") := by
  simp only [format_weight_display, Bool.false_eq_true, if_false]
  split_ifs <;> simp [String.append_assoc]

lemma format_true_eq (w : ℚ) :
    format_weight_display w true =
      (if w < -(1 / 100) then "-" else "") ++
        (if GRAMS_PER_KILOGRAM ≤ |w * GRAMS_PER_OUNCE| then
          fmtFixed (|w * GRAMS_PER_OUNCE| / GRAMS_PER_KILOGRAM) 3 ++ " kg"
        else fmtFixed |w * GRAMS_PER_OUNCE| 1 ++ " g") := by
  simp only [format_weight_display, if_true]
  split_ifs <;> simp [String.append_assoc]

lemma format_head_dash (w : ℚ) (m : Bool) (h : w < -(1 / 100)) :
    (format_weight_display w m).data.head? = some '-' := by
  cases m
  · rw [format_false_eq, if_pos h]
    split_ifs <;> rfl
  · rw [format_true_eq, if_pos h]
    split_ifs <;> rfl

lemma format_head_ne_dash (w : ℚ) (m : Bool) (h : ¬ (w < -(1 / 100))) (c : Char) :
    (format_weight_display w m).data.head? = some c → c ≠ '-' := by
  cases m
  · rw [format_false_eq, if_neg h, empty_str_append]
    split_ifs <;> intro hc
    · rw [String.data_append,
        List.head?_append_of_ne_nil _ (natStr_data_ne_nil _)] at hc
      exact natStr_head_ne_dash _ c hc
    · rw [String.data_append,
        List.head?_append_of_ne_nil _ (fmtFixed_data_ne_nil _ _)] at hc
      exact fmtFixed_head_ne_dash _ _ c hc
  · rw [format_true_eq, if_neg h, empty_str_append]
    split_ifs <;> intro hc
    · rw [String.data_append,
        List.head?_append_of_ne_nil _ (fmtFixed_data_ne_nil _ _)] at hc
      exact fmtFixed_head_ne_dash _ _ c hc
    · rw [String.data_append,
        List.head?_append_of_ne_nil _ (fmtFixed_data_ne_nil _ _)] at hc
      exact fmtFixed_head_ne_dash _ _ c hc

/-- Claim C3: `format_weight_display` renders imperial as pounds and
2-decimal remainder ounces when `|oz| ≥ 16` and as 2-decimal ounces
otherwise; metric converts at 28.3495 g/oz and renders 3-decimal
kilograms when `|grams| ≥ 1000`, else 1-decimal grams; a leading `-`
appears exactly when the unrounded ounce value is below `-0.01`, and the
magnitude part equals the rendering of the absolute value (the pounds
and kilograms components are never separately signed). Concretely,
`format_weight_display 0 false = "0.00 oz"`,
`format_weight_display 20 false = "1 lb 4.00 oz"`,
`format_weight_display 40 true = "1.134 kg"`, and
`format_weight_display (-0.005) false` has no leading `-`. -/
theorem format_weight_display_spec :
    format_weight_display 0 false = "0.00 oz" ∧
    format_weight_display 20 false = "1 lb 4.00 oz" ∧
    format_weight_display 40 true = "1.134 kg" ∧
    (format_weight_display (-(1 / 200)) false).data.head? ≠ some '-' ∧
    (∀ (w : ℚ) (m : Bool), format_weight_display w m =
      (if w < -(1 / 100) then "-" else "") ++ format_weight_display |w| m) ∧
    (∀ (w : ℚ) (m : Bool),
      (format_weight_display w m).data.head? = some '-' ↔ w < -(1 / 100)) ∧
    (∀ w : ℚ, OUNCES_PER_POUND ≤ |w| → format_weight_display w false =
      (if w < -(1 / 100) then "-" else "") ++
        (natStr (⌊|w| / OUNCES_PER_POUND⌋).toNat ++ (" lb " ++
          (fmtFixed (|w| - OUNCES_PER_POUND * (⌊|w| / OUNCES_PER_POUND⌋ : ℚ)) 2 ++
            " oz")))) ∧
    (∀ w : ℚ, |w| < OUNCES_PER_POUND → format_weight_display w false =
      (if w < -(1 / 100) then "-" else "") ++ (fmtFixed |w| 2 ++ " oz")) ∧
    (∀ w : ℚ, GRAMS_PER_KILOGRAM ≤ |w * GRAMS_PER_OUNCE| →
      format_weight_display w true =
      (if w < -(1 / 100) then "-" else "") ++
        (fmtFixed (|w * GRAMS_PER_OUNCE| / GRAMS_PER_KILOGRAM) 3 ++ " kg")) ∧
    (∀ w : ℚ, |w * GRAMS_PER_OUNCE| < GRAMS_PER_KILOGRAM →
      format_weight_display w true =
      (if w < -(1 / 100) then "-" else "") ++
        (fmtFixed |w * GRAMS_PER_OUNCE| 1 ++ " g")) := by
  refine ⟨format_zero_eval, format_twenty_eval, format_forty_metric_eval,
    ?_, ?_, ?_, ?_, ?_, ?_, ?_⟩
  · intro hc
    exact format_head_ne_dash _ _ (by norm_num) '-' hc rfl
  · intro w m
    have hne : ¬ (|w| < -(1 / 100)) :=
      not_lt.mpr (le_trans (by norm_num) (abs_nonneg w))
    cases m
    · rw [format_false_eq w, format_false_eq |w|, if_neg hne, empty_str_append,
        abs_abs]
    · rw [format_true_eq w, format_true_eq |w|, if_neg hne, empty_str_append,
        show |(|w|) * GRAMS_PER_OUNCE| = |w * GRAMS_PER_OUNCE| from by
          rw [abs_mul, abs_mul, abs_abs]]
  · intro w m
    constructor
    · intro hd
      by_contra hlt
      exact format_head_ne_dash w m hlt '-' hd rfl
    · exact format_head_dash w m
  · intro w hw
    rw [format_false_eq, if_pos hw]
  · intro w hw
    rw [format_false_eq, if_neg (not_le.mpr hw)]
  · intro w hw
    rw [format_true_eq, if_pos hw]
  · intro w hw
    rw [format_true_eq, if_neg (not_le.mpr hw)]

/-- Concrete instantiation of `format_weight_display_spec`. -/
theorem format_weight_display_spec_witness :
    |(0 : ℚ)| < OUNCES_PER_POUND ∧ format_weight_display 0 false =
      (if (0 : ℚ) < -(1 / 100) then "-" else "") ++ (fmtFixed |(0 : ℚ)| 2 ++ " oz") :=
  ⟨by norm_num [OUNCES_PER_POUND],
   format_weight_display_spec.2.2.2.2.2.2.2.1 0 (by norm_num [OUNCES_PER_POUND])⟩

/-- The action tokens the listener publishes: `"tare"`, `"reset"`,
`"toggle_units"`, `"exit_esc"`, `"exit_ctrl_c"`. -/
inductive SAction
  | tare
  | reset
  | toggle_units
  | exit_esc
  | exit_ctrl_c
  deriving DecidableEq

/-- The session-local state of `main`: the startup calibration point
`absolute_zero`, the tare offset `current_offset`, the unit flag
`is_metric`, and the most recent raw reading `current_raw`. -/
structure Session where
  absolute_zero : ℤ
  current_offset : ℤ
  is_metric : Bool
  current_raw : ℤ
  deriving DecidableEq

/-- The action dispatch at the top of the main loop: `tare` sets
`current_offset := current_raw`, `reset` sets
`current_offset := absolute_zero`, `toggle_units` flips `is_metric`,
and the exit actions break the loop (second component `true`). -/
def applyAction (action : Option SAction) (s : Session) : Session × Bool :=
  match action with
  | some SAction.tare => ({ s with current_offset := s.current_raw }, false)
  | some SAction.reset => ({ s with current_offset := s.absolute_zero }, false)
  | some SAction.toggle_units => ({ s with is_metric := !s.is_metric }, false)
  | some SAction.exit_esc => (s, true)
  | some SAction.exit_ctrl_c => (s, true)
  | none => (s, false)

lemma applyAction_absolute_zero (a : Option SAction) (s : Session) :
    ((applyAction a s).1).absolute_zero = s.absolute_zero := by
  cases a with
  | none => rfl
  | some a => cases a <;> rfl

/-- Claim C4: each action has exactly its specified effect on the
session state and changes nothing else: `tare` sets the offset to the
latest raw value (so calibration of the latest raw reads zero
immediately afterwards), `reset` restores exactly `absolute_zero` (which
no action ever modifies, however many tares happened in between),
`toggle_units` flips `is_metric` (twice restores it), the exit actions
break the loop leaving the state untouched, and an absent action is a
no-op. -/
theorem applyAction_spec :
    (∀ s : Session, applyAction (some SAction.tare) s =
      ({ s with current_offset := s.current_raw }, false) ∧
      get_calibrated_weight s.current_raw
        ((applyAction (some SAction.tare) s).1).current_offset = 0) ∧
    (∀ s : Session, applyAction (some SAction.reset) s =
      ({ s with current_offset := s.absolute_zero }, false)) ∧
    (∀ s : Session, applyAction (some SAction.toggle_units) s =
      ({ s with is_metric := !s.is_metric }, false) ∧
      ((applyAction (some SAction.toggle_units)
        ((applyAction (some SAction.toggle_units) s).1)).1).is_metric =
        s.is_metric) ∧
    (∀ s : Session, applyAction (some SAction.exit_esc) s = (s, true) ∧
      applyAction (some SAction.exit_ctrl_c) s = (s, true)) ∧
    (∀ s : Session, applyAction none s = (s, false)) ∧
    (∀ (l : List (Option SAction)) (s : Session),
      (l.foldl (fun t a => (applyAction a t).1) s).absolute_zero =
        s.absolute_zero) := by
  refine ⟨?_, fun s => rfl, ?_, fun s => ⟨rfl, rfl⟩, fun s => rfl, ?_⟩
  · intro s
    refine ⟨rfl, ?_⟩
    simp [applyAction, get_calibrated_weight]
  · intro s
    refine ⟨rfl, ?_⟩
    simp [applyAction]
  · intro l
    induction l with
    | nil => intro s; rfl
    | cons a l ih =>
      intro s
      rw [List.foldl_cons, ih, applyAction_absolute_zero]

/-- State of the `keyboard_listener` thread: the debounce timestamp
`last_action_time` (seconds, as returned by `time.time()`), the shared
slot `state["action"]`, and whether the listener loop has terminated. -/
structure LState where
  last_action_time : ℚ
  action : Option SAction
  stopped : Bool
  deriving DecidableEq

/-- Python's `str.upper()` restricted to the single ASCII characters the
listener compares against. -/
def keyUpper (c : Char) : Char :=
  if 'a' ≤ c ∧ c ≤ 'z' then Char.ofNat (c.toNat - 32) else c

/-- One iteration of `keyboard_listener`'s body for a key read at time
`t`: the debounce `continue` (within 0.2 s of the last accepted action)
comes first, then the dispatch on `key.upper()` for `T`/`R`/`M`, then the
raw-key comparisons with ESC (`'\x1b'`) and Ctrl-C (`'\x03'`), which
publish an exit token and `break`. A stopped listener processes nothing. -/
def listenerStep (s : LState) (t : ℚ) (key : Char) : LState :=
  if s.stopped then s
  else if t - s.last_action_time < 1 / 5 then s
  else if keyUpper key = 'T' then
    { s with action := some SAction.tare, last_action_time := t }
  else if keyUpper key = 'R' then
    { s with action := some SAction.reset, last_action_time := t }
  else if keyUpper key = 'M' then
    { s with action := some SAction.toggle_units, last_action_time := t }
  else if key = '\x1b' then
    { s with action := some SAction.exit_esc, stopped := true }
  else if key = '\x03' then
    { s with action := some SAction.exit_ctrl_c, stopped := true }
  else s

/-- The listener applied to a sequence of timed keypresses. -/
def listenerRun (s : LState) (evs : List (ℚ × Char)) : LState :=
  evs.foldl (fun st e => listenerStep st e.1 e.2) s

/-- The listener state just before the `k`-th keypress of the run. -/
def runPrefix (s : LState) (evs : List (ℚ × Char)) (k : ℕ) : LState :=
  listenerRun s (evs.take k)

/-- The `k`-th keypress of the run was accepted, i.e. it moved the
debounce timestamp (exactly the `T`/`R`/`M` presses that pass the
debounce check and update `last_action_time`). -/
def acceptedAt (s : LState) (evs : List (ℚ × Char)) (k : ℕ) : Prop :=
  (runPrefix s evs (k + 1)).last_action_time ≠
    (runPrefix s evs k).last_action_time

lemma listenerStep_last_cases (s : LState) (t : ℚ) (key : Char) :
    (listenerStep s t key).last_action_time = s.last_action_time ∨
    ((listenerStep s t key).last_action_time = t ∧
      1 / 5 ≤ t - s.last_action_time) := by
  rw [listenerStep]
  split_ifs with h1 h2 h3 h4 h5 h6 h7
  · exact Or.inl rfl
  · exact Or.inl rfl
  · exact Or.inr ⟨rfl, not_lt.mp h2⟩
  · exact Or.inr ⟨rfl, not_lt.mp h2⟩
  · exact Or.inr ⟨rfl, not_lt.mp h2⟩
  · exact Or.inl rfl
  · exact Or.inl rfl
  · exact Or.inl rfl

lemma listenerStep_last_le (s : LState) (t : ℚ) (key : Char) :
    s.last_action_time ≤ (listenerStep s t key).last_action_time := by
  rcases listenerStep_last_cases s t key with h | ⟨h, hle⟩
  · rw [h]
  · rw [h]; linarith

lemma runPrefix_succ (s : LState) (evs : List (ℚ × Char)) (k : ℕ)
    (hk : k < evs.length) :
    runPrefix s evs (k + 1) =
      listenerStep (runPrefix s evs k) (evs.get ⟨k, hk⟩).1 (evs.get ⟨k, hk⟩).2 := by
  rw [runPrefix, runPrefix, listenerRun, listenerRun, List.take_succ]
  rw [List.getElem?_eq_getElem hk]
  rw [List.foldl_append]
  rfl

lemma runPrefix_succ_of_ge (s : LState) (evs : List (ℚ × Char)) (k : ℕ)
    (hk : evs.length ≤ k) :
    runPrefix s evs (k + 1) = runPrefix s evs k := by
  rw [runPrefix, runPrefix, List.take_of_length_le hk,
    List.take_of_length_le (le_trans hk (Nat.le_succ k))]

lemma runPrefix_last_mono (s : LState) (evs : List (ℚ × Char)) :
    ∀ j k : ℕ, j ≤ k →
      (runPrefix s evs j).last_action_time ≤
        (runPrefix s evs k).last_action_time := by
  intro j k hjk
  induction k with
  | zero =>
    have hj : j = 0 := Nat.le_zero.mp hjk
    rw [hj]
  | succ k ih =>
    rcases Nat.lt_or_ge evs.length (k + 1) with hlen | hlen
    · rcases Nat.lt_or_ge k j with h | h
      · have hj : j = k + 1 := le_antisymm hjk h
        rw [hj]
      · have h1 := ih h
        rw [runPrefix_succ_of_ge s evs k (Nat.lt_succ_iff.mp hlen)]
        exact h1
    · rcases Nat.lt_or_ge k j with h | h
      · have hj : j = k + 1 := le_antisymm hjk h
        rw [hj]
      · have h1 := ih h
        have hk : k < evs.length := hlen
        rw [runPrefix_succ s evs k hk]
        exact le_trans h1 (listenerStep_last_le _ _ _)

lemma acceptedAt_last_eq (s : LState) (evs : List (ℚ × Char)) (k : ℕ)
    (hk : k < evs.length) (h : acceptedAt s evs k) :
    (runPrefix s evs (k + 1)).last_action_time = (evs.get ⟨k, hk⟩).1 ∧
      1 / 5 ≤ (evs.get ⟨k, hk⟩).1 - (runPrefix s evs k).last_action_time := by
  rw [acceptedAt, runPrefix_succ s evs k hk] at h
  rcases listenerStep_last_cases (runPrefix s evs k) (evs.get ⟨k, hk⟩).1
    (evs.get ⟨k, hk⟩).2 with h1 | ⟨h1, h2⟩
  · exact absurd h1 h
  · rw [runPrefix_succ s evs k hk]
    exact ⟨h1, h2⟩

/-- Claim C6: the listener's debounce window works: for every run, two
keypresses arriving less than 0.2 s apart are never both accepted, so the
published token is never updated twice within the window by
action-producing keys (only accepted `T`/`R`/`M` presses move
`last_action_time`, and each acceptance updates the token). -/
theorem keyboard_listener_debounce_spec :
    ∀ (s : LState) (evs : List (ℚ × Char)) (i j : ℕ) (hij : i < j)
      (hj : j < evs.length),
      (evs.get ⟨j, hj⟩).1 - (evs.get ⟨i, lt_trans hij hj⟩).1 < 1 / 5 →
      ¬ (acceptedAt s evs i ∧ acceptedAt s evs j) := by
  intro s evs i j hij hj hclose hboth
  rcases hboth with ⟨hi, hj'⟩
  have hi' := acceptedAt_last_eq s evs i (lt_trans hij hj) hi
  have hj'' := acceptedAt_last_eq s evs j hj hj'
  have hmono := runPrefix_last_mono s evs (i + 1) j (Nat.succ_le_of_lt hij)
  rw [hi'.1] at hmono
  linarith [hj''.2, hmono, hclose]

/-- Concrete instantiation of `keyboard_listener_debounce_spec`: a `t`
at time 1 s followed by an `r` 0.1 s later. -/
theorem keyboard_listener_debounce_spec_witness :
    ¬ (acceptedAt ⟨0, none, false⟩ [(1, 't'), (11 / 10, 'r')] 0 ∧
       acceptedAt ⟨0, none, false⟩ [(1, 't'), (11 / 10, 'r')] 1) :=
  keyboard_listener_debounce_spec ⟨0, none, false⟩ [(1, 't'), (11 / 10, 'r')]
    0 1 (by norm_num) (by norm_num) (by norm_num [List.get])

/-- Claim C5 as stated is false on the code: the debounce `continue`
runs before the ESC/Ctrl-C branches, so an ESC arriving 0.1 s after an
accepted `t` (within the 0.2 s window) is ignored — the published action
stays `tare` and the listener does not terminate. -/
theorem keyboard_listener_esc_debounced_counterexample :
    (listenerRun ⟨0, none, false⟩ [(1, 't'), (11 / 10, '\x1b')]).action =
      some SAction.tare ∧
    (listenerRun ⟨0, none, false⟩ [(1, 't'), (11 / 10, '\x1b')]).stopped =
      false := by
  have hT : keyUpper 't' = 'T' := by decide
  have h1 : listenerStep ⟨0, none, false⟩ 1 't' =
      ⟨1, some SAction.tare, false⟩ := by
    rw [listenerStep]
    norm_num [hT]
  have h2 : listenerStep ⟨1, some SAction.tare, false⟩ (11 / 10) '\x1b' =
      ⟨1, some SAction.tare, false⟩ := by
    rw [listenerStep]
    norm_num
  rw [listenerRun]
  simp only [List.foldl_cons, List.foldl_nil]
  rw [h1, h2]
  exact ⟨rfl, rfl⟩

/-- Claim C5, amended: an ESC (`'\x1b'`) or interrupt (`'\x03'`)
keypress produces the corresponding exit action and terminates the
listener immediately, provided the listener is running and at least
0.2 s have elapsed since the last accepted action; within the debounce
window these keys are ignored like any other key. -/
theorem keyboard_listener_exit_keys_spec :
    ∀ (s : LState) (t : ℚ), s.stopped = false →
      1 / 5 ≤ t - s.last_action_time →
      listenerStep s t '\x1b' =
        { s with action := some SAction.exit_esc, stopped := true } ∧
      listenerStep s t '\x03' =
        { s with action := some SAction.exit_ctrl_c, stopped := true } := by
  intro s t hs hd
  have hns : ¬ (s.stopped = true) := by rw [hs]; exact Bool.false_ne_true
  constructor
  · rw [listenerStep, if_neg hns, if_neg (not_lt.mpr hd), if_neg (by decide),
      if_neg (by decide), if_neg (by decide), if_pos rfl]
  · rw [listenerStep, if_neg hns, if_neg (not_lt.mpr hd), if_neg (by decide),
      if_neg (by decide), if_neg (by decide),
      if_neg (by decide : ¬ (('\x03' : Char) = '\x1b')), if_pos rfl]

/-- Concrete instantiation of `keyboard_listener_exit_keys_spec`. -/
theorem keyboard_listener_exit_keys_spec_witness :
    listenerStep ⟨0, none, false⟩ 1 '\x1b' =
      ⟨0, some SAction.exit_esc, true⟩ ∧
    listenerStep ⟨0, none, false⟩ 1 '\x03' =
      ⟨0, some SAction.exit_ctrl_c, true⟩ :=
  keyboard_listener_exit_keys_spec ⟨0, none, false⟩ 1 rfl (by norm_num)

/-- Claim C10: a keypress other than `T`/`t`, `R`/`r`, `M`/`m`, ESC and
Ctrl-C leaves the listener state completely unchanged — the shared
action slot keeps its value and the debounce timestamp does not move, so
an unmapped key neither produces an action nor delays a later mapped
key. -/
theorem keyboard_listener_unmapped_spec :
    ∀ (s : LState) (t : ℚ) (key : Char),
      keyUpper key ≠ 'T' → keyUpper key ≠ 'R' → keyUpper key ≠ 'M' →
      key ≠ '\x1b' → key ≠ '\x03' →
      listenerStep s t key = s := by
  intro s t key h1 h2 h3 h4 h5
  rw [listenerStep]
  split_ifs <;> rfl

/-- Concrete instantiation of `keyboard_listener_unmapped_spec`. -/
theorem keyboard_listener_unmapped_spec_witness :
    listenerStep ⟨0, none, false⟩ 1 'x' = ⟨0, none, false⟩ :=
  keyboard_listener_unmapped_spec ⟨0, none, false⟩ 1 'x'
    (by decide) (by decide) (by decide) (by decide) (by decide)

/-- Result of `stream.read(64)` during steady-state polling: a frame,
no data (empty/falsy), or a raised exception. -/
inductive ReadResult
  | frame (f : List Byte)
  | empty
  | err
  deriving DecidableEq

/-- Observable outcome of one main-loop iteration: the session state
afterwards, the status line written (if any), whether a debug-level log
was emitted, and whether the loop broke. -/
structure TickResult where
  state : Session
  rendered : Option String
  debugLogged : Bool
  exited : Bool
  deriving DecidableEq

/-- One iteration of the main loop: fetch-and-apply the pending action
(an exit action breaks before the read); then attempt the device read —
a frame that decodes updates `current_raw` and writes the status line
`"\rWeight: <display> (Raw: <delta>)      "`; empty data is skipped
silently; a read error or a `ValueError` from a short frame is caught,
logged at debug level, and skipped. -/
def loopTick (s : Session) (action : Option SAction) (r : ReadResult) :
    TickResult :=
  let s1 := (applyAction action s).1
  if (applyAction action s).2 then ⟨s1, none, false, true⟩
  else
    match r with
    | ReadResult.empty => ⟨s1, none, false, false⟩
    | ReadResult.err => ⟨s1, none, true, false⟩
    | ReadResult.frame f =>
      match get_raw_weight f with
      | Except.error _ => ⟨s1, none, true, false⟩
      | Except.ok raw =>
        let s2 := { s1 with current_raw := (raw : ℤ) }
        ⟨s2, some ("\rWeight: " ++
          format_weight_display
            (get_calibrated_weight s2.current_raw s2.current_offset)
            s2.is_metric ++
          " (Raw: " ++ toString (s2.current_raw - s2.current_offset) ++
          ")      "), false, false⟩

lemma applyAction_exit_iff (a : Option SAction) (s : Session) :
    (applyAction a s).2 = true ↔
      a = some SAction.exit_esc ∨ a = some SAction.exit_ctrl_c := by
  cases a with
  | none => simp [applyAction]
  | some a => cases a <;> simp [applyAction]

lemma applyAction_current_raw (a : Option SAction) (s : Session) :
    ((applyAction a s).1).current_raw = s.current_raw := by
  cases a with
  | none => rfl
  | some a => cases a <;> rfl

/-- Claim C7 as stated is false on the code: the status line is written
only inside `if data:`, so an iteration whose read yields no frame
renders nothing even when a unit toggle just changed the state — here
the toggle flips `is_metric` but no line is written. -/
theorem loopTick_no_render_counterexample :
    (loopTick ⟨100, 100, false, 100⟩ (some SAction.toggle_units)
      ReadResult.empty).rendered = none ∧
    (loopTick ⟨100, 100, false, 100⟩ (some SAction.toggle_units)
      ReadResult.empty).state.is_metric = true :=
  ⟨rfl, rfl⟩

/-- Claim C7, amended: the status line is recomputed and rendered only
on iterations where the non-blocking read returns a frame that decodes;
on such an iteration it is derived from the updated `current_raw`,
`current_offset` and `is_metric` and includes the raw delta. Iterations
with no data, a read error, or an undecodable frame render nothing (so a
unit toggle with no new frame is not reflected until the next successful
read). -/
theorem loopTick_render_spec :
    (∀ (s : Session) (a : Option SAction) (f : List Byte) (raw : ℕ),
      (applyAction a s).2 = false → get_raw_weight f = Except.ok raw →
      (loopTick s a (ReadResult.frame f)).rendered =
        some ("\rWeight: " ++
          format_weight_display
            (get_calibrated_weight (raw : ℤ)
              ((applyAction a s).1).current_offset)
            ((applyAction a s).1).is_metric ++
          " (Raw: " ++ toString ((raw : ℤ) - ((applyAction a s).1).current_offset) ++
          ")      ") ∧
      (loopTick s a (ReadResult.frame f)).state.current_raw = (raw : ℤ)) ∧
    (∀ (s : Session) (a : Option SAction),
      (loopTick s a ReadResult.empty).rendered = none ∧
      (loopTick s a ReadResult.err).rendered = none) ∧
    (∀ (s : Session) (a : Option SAction) (f : List Byte), f.length < 8 →
      (loopTick s a (ReadResult.frame f)).rendered = none) := by
  refine ⟨?_, ?_, ?_⟩
  · intro s a f raw hb hdec
    simp [loopTick, hb, hdec]
  · intro s a
    constructor <;> · simp only [loopTick]
                      split_ifs <;> rfl
  · intro s a f hf
    have hdec : (get_raw_weight f).isOk = false := get_raw_weight_spec.1 f hf
    simp only [loopTick]
    split_ifs
    · rfl
    · rcases herr : get_raw_weight f with m | v
      · simp [herr]
      · rw [herr] at hdec
        simp [Except.isOk, Except.toBool] at hdec

/-- Concrete instantiation of `loopTick_render_spec`. -/
theorem loopTick_render_spec_witness :
    (loopTick ⟨0, 0, false, 0⟩ none
      (ReadResult.frame [0, 0, 0, 0, 0, 0, 0x01, 0x2C])).state.current_raw =
      ((300 : ℕ) : ℤ) :=
  (loopTick_render_spec.1 ⟨0, 0, false, 0⟩ none
    [0, 0, 0, 0, 0, 0, 0x01, 0x2C] 300 rfl (by rfl)).2

/-- Claim C9: during steady-state polling, a failed, empty or invalid
read (including a frame shorter than 8 bytes) never changes
`current_raw` and never terminates the session by itself — the loop can
only break because the pending action was an exit action — and an actual
error (raised read or undecodable frame) on a non-exiting iteration is
logged at debug level. -/
theorem loopTick_resilience_spec :
    ∀ (s : Session) (a : Option SAction) (r : ReadResult),
      (r = ReadResult.empty ∨ r = ReadResult.err ∨
        (∃ f, r = ReadResult.frame f ∧ f.length < 8)) →
      (loopTick s a r).state.current_raw = s.current_raw ∧
      ((loopTick s a r).exited = true →
        a = some SAction.exit_esc ∨ a = some SAction.exit_ctrl_c) ∧
      ((r = ReadResult.err ∨ (∃ f, r = ReadResult.frame f ∧ f.length < 8)) →
        (loopTick s a r).exited = false →
        (loopTick s a r).debugLogged = true) := by
  intro s a r hr
  have hexit : ∀ t : TickResult, t = loopTick s a r →
      t.exited = true → a = some SAction.exit_esc ∨ a = some SAction.exit_ctrl_c := by
    intro t ht hex
    rw [ht] at hex
    simp only [loopTick] at hex
    split_ifs at hex with hb
    · exact (applyAction_exit_iff a s).mp hb
    · rcases r with f | _ | _
      · rcases hdec : get_raw_weight f with m | v <;> simp [hdec] at hex
      · simp at hex
      · simp at hex
  refine ⟨?_, hexit _ rfl, ?_⟩
  · rcases hr with rfl | rfl | ⟨f, rfl, hf⟩
    · simp only [loopTick]
      split_ifs <;> exact applyAction_current_raw a s
    · simp only [loopTick]
      split_ifs <;> exact applyAction_current_raw a s
    · have hdec : (get_raw_weight f).isOk = false := get_raw_weight_spec.1 f hf
      simp only [loopTick]
      split_ifs
      · exact applyAction_current_raw a s
      · rcases herr : get_raw_weight f with m | v
        · simp [herr, applyAction_current_raw a s]
        · rw [herr] at hdec
          simp [Except.isOk, Except.toBool] at hdec
  · intro herr hnex
    rcases herr with rfl | ⟨f, rfl, hf⟩
    · simp only [loopTick] at hnex ⊢
      split_ifs at hnex ⊢ <;> simp_all
    · have hdec : (get_raw_weight f).isOk = false := get_raw_weight_spec.1 f hf
      simp only [loopTick] at hnex ⊢
      split_ifs at hnex ⊢
      rcases hd : get_raw_weight f with m | v
      · simp [hd]
      · rw [hd] at hdec
        simp [Except.isOk, Except.toBool] at hdec

/-- Concrete instantiation of `loopTick_resilience_spec`. -/
theorem loopTick_resilience_spec_witness :
    (loopTick ⟨0, 0, false, 5⟩ none ReadResult.empty).state.current_raw = 5 :=
  (loopTick_resilience_spec ⟨0, 0, false, 5⟩ none ReadResult.empty (Or.inl rfl)).1

/-- Outcome of `main`'s startup phase. -/
inductive StartupOutcome
  | errorMessageShown
  | initReadError
  | crashed (msg : String)
  | loopEntered (az : ℤ)
  deriving DecidableEq

/-- Startup phase of `main` (lines 259–281): `connect_scale()` returning `None`
prints the troubleshooting message (`show_error_message`) and returns;
otherwise one initial frame is read: no data logs
"Failed to read initial data from device" and returns before the loop; a
non-empty frame that fails to decode propagates the uncaught
`ValueError`; otherwise `absolute_zero` is established and the main loop
is entered. -/
def mainStartup (stream : Option Unit) (initData : List Byte) :
    StartupOutcome :=
  match stream with
  | none => StartupOutcome.errorMessageShown
  | some _ =>
    if initData.isEmpty then StartupOutcome.initReadError
    else
      match get_raw_weight initData with
      | Except.error m => StartupOutcome.crashed m
      | Except.ok az => StartupOutcome.loopEntered (az : ℤ)

/-- Claim C8: when no device is found or opened, `main` shows the
troubleshooting message and returns cleanly; when the device opens but
the initial calibration read yields no data, it reports the error and
returns before the loop — in both cases the main loop is never
entered. -/
theorem main_startup_spec :
    (∀ d : List Byte, mainStartup none d = StartupOutcome.errorMessageShown) ∧
    mainStartup (some ()) [] = StartupOutcome.initReadError ∧
    (∀ (d : List Byte) (az : ℤ),
      mainStartup none d ≠ StartupOutcome.loopEntered az) ∧
    (∀ az : ℤ, mainStartup (some ()) [] ≠ StartupOutcome.loopEntered az) := by
  refine ⟨fun d => rfl, rfl, fun d az => by simp [mainStartup], fun az => by
    simp [mainStartup]⟩

/-- Concrete instantiation of `main_startup_spec`. -/
theorem main_startup_spec_witness :
    mainStartup none [0] = StartupOutcome.errorMessageShown ∧
    mainStartup (some ()) [] = StartupOutcome.initReadError :=
  ⟨main_startup_spec.1 [0], main_startup_spec.2.1⟩
